import Mathlib

/-!
Verification of the ndn-cxx application Face implementation
(`src/ndn-cxx/impl/face-impl.hpp` and `src/ndn-cxx/util/dummy-client-face.cpp`)
against its natural-language specification.

The embedding translates `Face::Impl` into pure Lean functions over an
explicit `FaceState`.  Outbound frames and user-callback invocations are
recorded as an ordered event trace; a C++ exception escaping an operation is
modelled by the `thrown` field of `OpResult` (the state mutations performed
before the throw are retained, exactly as in C++).

The TLV codec is an external collaborator of the core (spec section 1), so
packet encodings are abstracted to their byte sizes and NDNLP header fields
to the byte sizes they contribute.
-/

namespace NdnFace

/-- A Name is an abstract list of name components. -/
abbrev Name := List Nat

/-- Modelled from the spec: `isPrefixOf` is provided by the external TLV
codec; on abstract component lists it is list-prefix. -/
def namePrefixOf (p n : Name) : Bool :=
  List.isPrefixOf p n

/-- An Interest packet.  `wireSize` abstracts the size of its TLV encoding;
the two optional tags carry the byte size of the NDNLP header field that
would be generated from them (`lp-field-tag.hpp` pairs). -/
structure Interest where
  name : Name
  canBePrefix : Bool
  wireSize : Nat
  nextHopFaceIdTag : Option Nat
  congestionMarkTag : Option Nat
deriving DecidableEq, Repr

/-- A Data packet, with its abstract encoding size and optional tags. -/
structure Data where
  name : Name
  wireSize : Nat
  cachePolicyTag : Option Nat
  congestionMarkTag : Option Nat
deriving DecidableEq, Repr

/-- Nack reason codes (`lp/nack-header.hpp` values). -/
inductive NackReason where
  | congestion
  | duplicate
  | noRoute
deriving DecidableEq, Repr

/-- Numeric severity of a Nack reason; smaller is less severe
(Congestion < Duplicate < NoRoute). -/
def NackReason.severity : NackReason → Nat
  | .congestion => 50
  | .duplicate => 100
  | .noRoute => 150

/-- A Nack packet: the Nacked Interest plus a reason. -/
structure Nack where
  interest : Interest
  reason : NackReason
  congestionMarkTag : Option Nat
deriving DecidableEq, Repr

/-- Modelled from the spec: `Interest::matchesData` is provided by the
external TLV codec.  Data D satisfies Interest I iff I.name is a prefix of
D.name when CanBePrefix is set, else the names are equal (glossary). -/
def Interest.matchesData (i : Interest) (d : Data) : Bool :=
  if i.canBePrefix then namePrefixOf i.name d.name else i.name == d.name

/-- Modelled from the spec: `Interest::matchesInterest` is provided by the
external TLV codec; two Interests match when they carry the same name and
the same CanBePrefix setting. -/
def Interest.matchesInterest (i other : Interest) : Bool :=
  i.name == other.name && i.canBePrefix == other.canBePrefix

/-- Origin of a pending-interest record (`PendingInterestOrigin`). -/
inductive Origin where
  | app
  | forwarder
deriving DecidableEq, Repr

/-- Modelled from the spec: a `PendingInterest` record
(`impl/pending-interest.hpp`, not under src/): id, interest, origin, the
count of destinations the Interest was forwarded to, and the Nack
accumulator (count of Nacks received, least-severe Nack so far). -/
structure PendingInterest where
  id : Nat
  interest : Interest
  origin : Origin
  nSent : Nat
  nNacks : Nat
  leastSevereNack : Option Nack
deriving DecidableEq, Repr

/-- Modelled from the spec: `PendingInterest::recordForwarding` counts one
more destination the Interest has been forwarded to. -/
def PendingInterest.recordForwarding (e : PendingInterest) : PendingInterest :=
  { e with nSent := e.nSent + 1 }

/-- Keep the less severe of the accumulated Nack and a new Nack
(strictly-less comparison, so the earlier Nack wins ties). -/
def keepLeastSevere (acc : Option Nack) (n : Nack) : Nack :=
  match acc with
  | none => n
  | some m => if n.reason.severity < m.reason.severity then n else m

/-- Modelled from the spec: `PendingInterest::recordNack` records one more
Nack into the accumulator, keeping the least-severe reason so far; once
every dispatched destination has Nacked it returns the accumulated
least-severe Nack, otherwise none. -/
def PendingInterest.recordNack (e : PendingInterest) (n : Nack) :
    PendingInterest × Option Nack :=
  let e2 := { e with nNacks := e.nNacks + 1,
                     leastSevereNack := some (keepLeastSevere e.leastSevereNack n) }
  (e2, if e2.nNacks < e.nSent then none else e2.leastSevereNack)

/-- Modelled from the spec: an `InterestFilterRecord`
(`impl/interest-filter-record.hpp`, not under src/): id, the filter's
name prefix, and the allowLoopback flag (the optional regex is not
configured in the modelled filters). -/
structure InterestFilterRecord where
  id : Nat
  filterName : Name
  allowLoopback : Bool
deriving DecidableEq, Repr

/-- Modelled from the spec: `InterestFilterRecord::doesMatch` — the filter
prefix must be a prefix of the Interest name, and an APP-origin (loopback)
Interest does not match a filter that disables loopback. -/
def InterestFilterRecord.doesMatch (f : InterestFilterRecord)
    (e : PendingInterest) : Bool :=
  namePrefixOf f.filterName e.interest.name &&
    (e.origin == Origin.forwarder || f.allowLoopback)

/-- A `RegisteredPrefix` record: id, prefix, command options (abstracted to
an opaque number), and the paired filter id (0 = no paired filter). -/
structure RegisteredPrefix where
  id : Nat
  prefixName : Name
  options : Nat
  filterId : Nat
deriving DecidableEq, Repr

/-- The mutable state of `Face::Impl`: the three record tables (in
insertion order, as `RecordContainer` iterates), the id allocators, and the
run-loop work guard. -/
structure FaceState where
  pendingInterestTable : List PendingInterest
  interestFilterTable : List InterestFilterRecord
  registeredPrefixTable : List RegisteredPrefix
  nextPendingId : Nat
  nextFilterId : Nat
  nextPrefixId : Nat
  workGuard : Bool
deriving DecidableEq, Repr

/-- An outbound frame handed to the transport. -/
structure Frame where
  pktType : Char
  name : Name
  wireSize : Nat
  nackReason : Option NackReason
deriving DecidableEq, Repr

/-- Observable events of one Face operation, in program order. -/
inductive Event where
  | send (f : Frame)
  | dataCallback (entryId : Nat) (i : Interest) (d : Data)
  | nackCallback (entryId : Nat) (n : Nack)
  | interestCallback (filterId : Nat) (i : Interest)
  | forwardingRecorded (entryId : Nat)
  | ribRegisterCommand (n : Name) (flags : Nat)
  | ribUnregisterCommand (n : Name)
  | filterRecordInserted (filterId : Nat)
  | prefixRecordInserted (recordId : Nat)
  | registerSuccessCallback (n : Name)
  | registerFailureCallback (n : Name) (text : String)
  | unregisterSuccessCallback
  | unregisterFailureCallback (text : String)
deriving DecidableEq, Repr

/-- `Face::OversizedPacketError{kind, name, size}`. -/
structure OversizedPacketError where
  pktType : Char
  name : Name
  wireSize : Nat
deriving DecidableEq, Repr

/-- The outcome of one Face operation: the state after it, the events it
produced, and the exception escaping it, if any (mutations made before the
throw are retained, as in C++). -/
structure OpResult where
  state : FaceState
  events : List Event
  thrown : Option OversizedPacketError
deriving DecidableEq, Repr

/-- The outbound frames among an operation's events. -/
def sentFrames (evs : List Event) : List Frame :=
  evs.filterMap fun e =>
    match e with
    | .send f => some f
    | _ => none

/-- `MAX_NDN_PACKET_SIZE`, a protocol constant. -/
def maxNdnPacketSize : Nat := 8800

/-- NDNLP header-field sizes contributed by an optional tag
(`addFieldFromTag`: an absent tag adds no field). -/
def tagHeaders (t : Option Nat) : List Nat :=
  match t with
  | none => []
  | some sz => [sz]

/-- Abstract encoded size of the mandatory NDNLP Nack header field. -/
def nackHeaderSize : Nat := 4

/-- NDNLP header fields built by `expressInterest`
(NextHopFaceId, then CongestionMark). -/
def interestLpHeaders (i : Interest) : List Nat :=
  tagHeaders i.nextHopFaceIdTag ++ tagHeaders i.congestionMarkTag

/-- NDNLP header fields built by `putData` (CachePolicy, then
CongestionMark). -/
def dataLpHeaders (d : Data) : List Nat :=
  tagHeaders d.cachePolicyTag ++ tagHeaders d.congestionMarkTag

/-- NDNLP header fields built by `putNack` (mandatory Nack header, then
CongestionMark). -/
def nackLpHeaders (n : Nack) : List Nat :=
  nackHeaderSize :: tagHeaders n.congestionMarkTag

/-- `Face::Impl::finishEncoding`: if the NDNLP packet has any header field,
the wire goes into its FragmentField and the container is re-encoded
(abstractly: the header sizes add to the fragment size); otherwise the bare
wire is emitted.  A result over `MAX_NDN_PACKET_SIZE` throws
`OversizedPacketError{kind, name, size}`. -/
def finishEncoding (lpHeaders : List Nat) (wireSize : Nat) (pktType : Char)
    (name : Name) : Except OversizedPacketError Nat :=
  let w := if lpHeaders.isEmpty then wireSize else wireSize + lpHeaders.sum
  if maxNdnPacketSize < w then Except.error ⟨pktType, name, w⟩ else Except.ok w

/-- Final wire size `finishEncoding` computes for an Interest. -/
def interestEncodedSize (i : Interest) : Nat :=
  if (interestLpHeaders i).isEmpty then i.wireSize
  else i.wireSize + (interestLpHeaders i).sum

/-- Final wire size `finishEncoding` computes for a Data. -/
def dataEncodedSize (d : Data) : Nat :=
  if (dataLpHeaders d).isEmpty then d.wireSize
  else d.wireSize + (dataLpHeaders d).sum

/-- Final wire size `finishEncoding` computes for an outbound Nack. -/
def nackEncodedSize (n : Nack) : Nat :=
  n.interest.wireSize + (nackLpHeaders n).sum

/-- The `removeIf` loop body of `Face::Impl::satisfyPendingInterests`:
visit the entries in insertion order; every entry whose Interest matches
the Data is removed, an APP match invokes its Data callback and sets
`hasAppMatch`, a FORWARDER match sets `hasForwarderMatch`.  Returns
(hasAppMatch, hasForwarderMatch, surviving entries, events). -/
def satisfyLoop (d : Data) :
    List PendingInterest → Bool × Bool × List PendingInterest × List Event
  | [] => (false, false, [], [])
  | e :: rest =>
    let (hA, hF, tbl, evs) := satisfyLoop d rest
    if e.interest.matchesData d then
      match e.origin with
      | .app => (true, hF, tbl, Event.dataCallback e.id e.interest d :: evs)
      | .forwarder => (hA, true, tbl, evs)
    else
      (hA, hF, e :: tbl, evs)

/-- `Face::Impl::satisfyPendingInterests`: run the removal loop and return
`hasForwarderMatch || !hasAppMatch` (Data matching no record is unsolicited
and is still sent to the forwarder), with the new table and events. -/
def satisfyPendingInterests (d : Data) (tbl : List PendingInterest) :
    Bool × List PendingInterest × List Event :=
  let (hA, hF, tbl2, evs) := satisfyLoop d tbl
  (hF || !hA, tbl2, evs)

/-- `Face::Impl::putData`: first satisfy pending Interests; if the Data
need not go to the forwarder, stop; otherwise encode with CachePolicy and
CongestionMark headers and send (an oversized encoding throws after the
table mutation already happened). -/
def putData (d : Data) (s : FaceState) : OpResult :=
  let (shouldSend, tbl, evs) := satisfyPendingInterests d s.pendingInterestTable
  let s2 := { s with pendingInterestTable := tbl }
  if shouldSend then
    match finishEncoding (dataLpHeaders d) d.wireSize 'D' d.name with
    | .error err => ⟨s2, evs, some err⟩
    | .ok w => ⟨s2, evs ++ [Event.send ⟨'D', d.name, w, none⟩], none⟩
  else
    ⟨s2, evs, none⟩

/-- The pending entries surviving `satisfyPendingInterests`: those whose
Interest does not match the Data. -/
def removeMatched (d : Data) (tbl : List PendingInterest) : List PendingInterest :=
  tbl.filter fun e => !e.interest.matchesData d

/-- The Data-callback events `satisfyPendingInterests` produces: one per
matching APP-origin entry, in insertion order. -/
def appMatchCallbacks (d : Data) (tbl : List PendingInterest) : List Event :=
  (tbl.filter fun e => e.origin == Origin.app && e.interest.matchesData d).map
    fun e => Event.dataCallback e.id e.interest d

/-- Does some APP-origin pending entry match the Data? -/
def hasAppMatch (d : Data) (tbl : List PendingInterest) : Bool :=
  tbl.any fun e => e.origin == Origin.app && e.interest.matchesData d

/-- Does some FORWARDER-origin pending entry match the Data? -/
def hasForwarderMatch (d : Data) (tbl : List PendingInterest) : Bool :=
  tbl.any fun e => e.origin == Origin.forwarder && e.interest.matchesData d

/-- `Face::Impl::dispatchInterest`: iterate the interest-filter table in
insertion order; for each filter matching the entry, record one more
forwarded destination on the entry, then invoke the filter's callback.
Returns the updated entry and the events in program order. -/
def dispatchInterest (entry : PendingInterest) (i : Interest) :
    List InterestFilterRecord → PendingInterest × List Event
  | [] => (entry, [])
  | f :: rest =>
    if f.doesMatch entry then
      let e2 := entry.recordForwarding
      let (e3, evs) := dispatchInterest e2 i rest
      (e3, Event.forwardingRecorded entry.id :: Event.interestCallback f.id i :: evs)
    else
      dispatchInterest entry i rest

/-- `Face::Impl::expressInterest(id, interest, …)`: insert an APP-origin
pending entry, build the NDNLP packet from the Interest's tags, record the
forwarding to the wire, send the encoding to the transport, and only then
dispatch the Interest to local filters (loopback).  An oversized encoding
throws after the table insertion and before any send or dispatch. -/
def expressInterest (id : Nat) (i : Interest) (s : FaceState) : OpResult :=
  let entry : PendingInterest :=
    PendingInterest.recordForwarding ⟨id, i, Origin.app, 0, 0, none⟩
  match finishEncoding (interestLpHeaders i) i.wireSize 'I' i.name with
  | .error err =>
    ⟨{ s with pendingInterestTable := s.pendingInterestTable ++ [entry] }, [], some err⟩
  | .ok w =>
    let (entry2, evs) := dispatchInterest entry i s.interestFilterTable
    ⟨{ s with pendingInterestTable := s.pendingInterestTable ++ [entry2] },
      Event.send ⟨'I', i.name, w, none⟩ :: evs, none⟩

/-- `Face::Impl::processIncomingInterest`: insert a FORWARDER-origin
pending entry (no timer, no callbacks) and dispatch it through the
interest filters. -/
def processIncomingInterest (i : Interest) (s : FaceState) : FaceState × List Event :=
  let entry : PendingInterest := ⟨s.nextPendingId, i, Origin.forwarder, 0, 0, none⟩
  let (entry2, evs) := dispatchInterest entry i s.interestFilterTable
  ({ s with pendingInterestTable := s.pendingInterestTable ++ [entry2],
            nextPendingId := s.nextPendingId + 1 }, evs)

/-- `Face::Impl::setInterestFilter`: append a filter record. -/
def setInterestFilter (id : Nat) (filterName : Name) (allowLoopback : Bool)
    (s : FaceState) : FaceState :=
  { s with interestFilterTable :=
      s.interestFilterTable ++ [⟨id, filterName, allowLoopback⟩] }

/-- `Face::Impl::unsetInterestFilter`: erase the filter record with the
given id, if present. -/
def unsetInterestFilter (id : Nat) (s : FaceState) : FaceState :=
  { s with interestFilterTable :=
      s.interestFilterTable.filter fun f => !(f.id == id) }

/-- The `removeIf` loop body of `Face::Impl::nackPendingInterests`: for
each entry matching the Nacked Interest, record the Nack; when the
accumulator completes, an APP entry invokes its Nack callback and a
FORWARDER entry overwrites the outbound Nack candidate (so the last
completing FORWARDER entry in insertion order determines it); completed
entries are removed.  Returns (outbound Nack, surviving entries, events). -/
def nackLoop (n : Nack) :
    List PendingInterest → Option Nack × List PendingInterest × List Event
  | [] => (none, [], [])
  | e :: rest =>
    if n.interest.matchesInterest e.interest then
      match e.recordNack n with
      | (e2, none) =>
        let (o, tbl, evs) := nackLoop n rest
        (o, e2 :: tbl, evs)
      | (_, some outNack1) =>
        let (o, tbl, evs) := nackLoop n rest
        match e.origin with
        | .app => (o, tbl, Event.nackCallback e.id outNack1 :: evs)
        | .forwarder => (some (o.getD outNack1), tbl, evs)
    else
      let (o, tbl, evs) := nackLoop n rest
      (o, e :: tbl, evs)

/-- `Face::Impl::nackPendingInterests`: run the loop; the returned Nack, if
any, is the one to send to the forwarder. -/
def nackPendingInterests (n : Nack) (tbl : List PendingInterest) :
    Option Nack × List PendingInterest × List Event :=
  nackLoop n tbl

/-- Specification-level characterization of the outbound Nack, to be
compared with the loop above: the completed accumulator of the LAST entry
in insertion order that matches the Nacked Interest, has FORWARDER origin,
and completes on this Nack (later entries take precedence; an entry whose
accumulator stays open contributes nothing). -/
def lastForwarderCompletion (n : Nack) : List PendingInterest → Option Nack
  | [] => none
  | e :: rest =>
    match lastForwarderCompletion n rest with
    | some x => some x
    | none =>
      if n.interest.matchesInterest e.interest
          && (e.origin == Origin.forwarder)
      then (e.recordNack n).2
      else none

/-- `Face::Impl::putNack`: nack the pending Interests; if no outbound Nack
results, stop; otherwise encode the Nacked Interest with the mandatory Nack
header plus CongestionMark and send. -/
def putNack (n : Nack) (s : FaceState) : OpResult :=
  let (outNack, tbl, evs) := nackPendingInterests n s.pendingInterestTable
  let s2 := { s with pendingInterestTable := tbl }
  match outNack with
  | none => ⟨s2, evs, none⟩
  | some out =>
    match finishEncoding (nackLpHeaders out) out.interest.wireSize 'N'
        out.interest.name with
    | .error err => ⟨s2, evs, some err⟩
    | .ok w =>
      ⟨s2, evs ++ [Event.send ⟨'N', out.interest.name, w, some out.reason⟩], none⟩

/-- Outcome of a management RPC issued through the Controller. -/
inductive ControlOutcome where
  | success
  | failure (text : String)
deriving DecidableEq, Repr

/-- Result of `registerPrefix`: the synchronously returned record id, the
state after the command callback ran, and the events. -/
structure RegisterResult where
  returnedId : Nat
  state : FaceState
  events : List Event
deriving DecidableEq, Repr

/-- `Face::Impl::registerPrefix`: allocate the record id up-front, issue
`RibRegister{name, flags}`; on success insert the optional paired
InterestFilterRecord, then the RegisteredPrefix record, then invoke
onSuccess (when provided); on failure invoke onFailure with the response
text and insert nothing.  The `outcome` parameter stands for the
Controller's reply. -/
def registerPrefix (prefixName : Name) (flags options : Nat)
    (filterOpt : Option (Name × Bool)) (hasOnSuccess : Bool)
    (outcome : ControlOutcome) (s : FaceState) : RegisterResult :=
  let id := s.nextPrefixId
  let s0 := { s with nextPrefixId := s.nextPrefixId + 1 }
  let evs0 := [Event.ribRegisterCommand prefixName flags]
  match outcome with
  | .failure text =>
    ⟨id, s0, evs0 ++ [Event.registerFailureCallback prefixName text]⟩
  | .success =>
    let (s1, filterId, evs1) :=
      match filterOpt with
      | none => (s0, 0, ([] : List Event))
      | some (fname, loopback) =>
        let fid := s0.nextFilterId
        ({ s0 with
            interestFilterTable :=
              s0.interestFilterTable ++ [InterestFilterRecord.mk fid fname loopback],
            nextFilterId := s0.nextFilterId + 1 },
          fid, [Event.filterRecordInserted fid])
    let s2 := { s1 with registeredPrefixTable :=
        s1.registeredPrefixTable ++ [RegisteredPrefix.mk id prefixName options filterId] }
    ⟨id, s2,
      evs0 ++ evs1 ++ [Event.prefixRecordInserted id] ++
        (if hasOnSuccess then [Event.registerSuccessCallback prefixName] else [])⟩

/-- `Face::Impl::unregisterPrefix`: look up the record; if absent, invoke
onFailure (when provided) with the unrecognized-handle text and stop; else
remove the paired filter record (if any), issue `RibUnregister{prefix}`,
and on success erase the record and invoke onSuccess, on failure keep the
record and invoke onFailure with the response text.  This path throws
nothing. -/
def unregisterPrefix (id : Nat) (hasOnSuccess hasOnFailure : Bool)
    (outcome : ControlOutcome) (s : FaceState) : FaceState × List Event :=
  match s.registeredPrefixTable.find? (fun r => r.id == id) with
  | none =>
    (s, if hasOnFailure
        then [Event.unregisterFailureCallback "Unrecognized RegisteredPrefixHandle"]
        else [])
  | some record =>
    let s1 := if record.filterId != 0 then unsetInterestFilter record.filterId s else s
    let evs0 := [Event.ribUnregisterCommand record.prefixName]
    match outcome with
    | .success =>
      ({ s1 with registeredPrefixTable :=
            s1.registeredPrefixTable.filter fun r => !(r.id == id) },
        evs0 ++ (if hasOnSuccess then [Event.unregisterSuccessCallback] else []))
    | .failure text =>
      (s1, evs0 ++ (if hasOnFailure then [Event.unregisterFailureCallback text] else []))

/-- `Face::Impl::shutdown`: drop the run-loop work guard and clear the
pending-interest and registered-prefix tables (no callbacks, no RPCs); the
interest-filter table is not touched. -/
def Face.shutdown (s : FaceState) : FaceState :=
  { s with workGuard := false, pendingInterestTable := [], registeredPrefixTable := [] }

/-- Number of invocations of the filter callback with the given filter id
in an event trace. -/
def countCallbacks (fid : Nat) (evs : List Event) : Nat :=
  (evs.filter fun e =>
    match e with
    | .interestCallback fid2 _ => fid2 == fid
    | _ => false).length

/-- Every filter-callback invocation in the trace is immediately preceded
by recording one more forwarded destination on the pending entry. -/
def recordedBeforeCallback : List Event → Bool
  | [] => true
  | Event.forwardingRecorded _ :: Event.interestCallback _ _ :: rest =>
    recordedBeforeCallback rest
  | Event.interestCallback _ _ :: _ => false
  | _ :: rest => recordedBeforeCallback rest

/-- NFD route origin `ROUTE_ORIGIN_PREFIXANN`. -/
def routeOriginPrefixAnn : Nat := 129

/-- NFD route flag `ROUTE_FLAG_CHILD_INHERIT`. -/
def routeFlagChildInherit : Nat := 1

/-- A PrefixAnnouncement object: announced name and expiration period. -/
structure PrefixAnnouncement where
  announcedName : Name
  expiration : Nat
deriving DecidableEq, Repr

/-- `nfd::ControlParameters` as filled by the registration-reply test
double. -/
structure ControlParameters where
  name : Name
  faceId : Nat
  origin : Nat
  cost : Nat
  flags : Nat
  expirationPeriod : Nat
deriving DecidableEq, Repr

/-- `DummyClientFace::enableRegistrationReply`, announce path: the
ControlParameters placed in the ControlResponse body.  The incoming
packet's IncomingFaceId tag is taken as a parameter but, as in the source
(which carries a TODO about the nullptr dereference), it is NOT used: the
faceId is the fixed placeholder 555, origin is PREFIXANN, cost 2048, flags
CHILD_INHERIT, and the expiration period is the announcement's. -/
def announceReplyParams (pa : PrefixAnnouncement)
    (_incomingFaceIdTag : Option Nat) : ControlParameters :=
  { name := pa.announcedName
    faceId := 555
    origin := routeOriginPrefixAnn
    cost := 2048
    flags := routeFlagChildInherit
    expirationPeriod := pa.expiration }

/-! Sample packets and states used to evaluate the theorems on concrete
inputs. -/

/-- A fresh Face state: empty tables, id allocators at 1 (RecordIds are
non-zero), work guard armed. -/
def emptyState : FaceState := ⟨[], [], [], 1, 1, 1, true⟩

/-- Interest for name `/A` with CanBePrefix, no tags. -/
def interestA : Interest := ⟨[1], true, 100, none, none⟩

/-- Interest for name `/A` without CanBePrefix, no tags. -/
def interestAExact : Interest := ⟨[1], false, 100, none, none⟩

/-- Data for name `/A/B`, no tags. -/
def dataAB : Data := ⟨[1, 2], 120, none, none⟩

/-- An APP-origin pending entry for `/A` already forwarded to the wire. -/
def appEntryA : PendingInterest := ⟨1, interestA, Origin.app, 1, 0, none⟩

/-- A FORWARDER-origin pending entry for `/A` dispatched to one filter. -/
def fwdEntryA : PendingInterest := ⟨2, interestA, Origin.forwarder, 1, 0, none⟩

/-- An oversized Interest: bare encoding of 9000 bytes, over the 8800-byte
cap. -/
def bigInterest : Interest := ⟨[1], true, 9000, none, none⟩

/-- A Nack for the exact-match Interest `/A`, reason NoRoute. -/
def nackANoRoute : Nack := ⟨interestAExact, NackReason.noRoute, none⟩

/-- A Nack for the exact-match Interest `/A`, reason Congestion. -/
def nackACongestion : Nack := ⟨interestAExact, NackReason.congestion, none⟩

/-- A Face with two filters on `/`: filter 1 allows loopback, filter 2
disables it. -/
def twoFilterState : FaceState :=
  { emptyState with interestFilterTable := [⟨1, [], true⟩, ⟨2, [], false⟩] }

/-- A Nack-accumulation scenario driven entirely through the Face API.  Two
filters on `/` are set; Interest `/A` arrives from the forwarder (entry 1,
dispatched to both filters); a Congestion Nack is put (entry 1 waits for
its second destination); the second filter is unset; Interest `/A` arrives
again (entry 2, dispatched to one filter).  Both FORWARDER entries now need
exactly one more Nack to complete. -/
def nackScenarioState : FaceState :=
  (processIncomingInterest interestAExact
    (unsetInterestFilter 2
      (putNack nackACongestion
        (processIncomingInterest interestAExact
          (setInterestFilter 2 [] true
            (setInterestFilter 1 [] true emptyState))).1).state)).1

/-- Putting a NoRoute Nack into the scenario completes both entries in the
same call. -/
def nackScenarioResult : OpResult := putNack nackANoRoute nackScenarioState

/-! ## Theorems -/

/-- The satisfaction loop visits every entry whose Interest matches the
Data: the match flags are the existence checks over the table, matching
entries are removed, and each matching APP entry gets its Data callback. -/
theorem satisfyLoop_eq (d : Data) (tbl : List PendingInterest) :
    satisfyLoop d tbl
      = (hasAppMatch d tbl, hasForwarderMatch d tbl,
         removeMatched d tbl, appMatchCallbacks d tbl) := by
  induction tbl with
  | nil => simp [satisfyLoop, hasAppMatch, hasForwarderMatch, removeMatched,
      appMatchCallbacks]
  | cons e rest ih =>
    by_cases hm : e.interest.matchesData d = true
    · cases ho : e.origin <;>
        simp [satisfyLoop, ih, hasAppMatch, hasForwarderMatch, removeMatched,
          appMatchCallbacks, hm, ho]
    · simp only [Bool.not_eq_true] at hm
      simp [satisfyLoop, ih, hasAppMatch, hasForwarderMatch, removeMatched,
        appMatchCallbacks, hm]

theorem sentFrames_append (a b : List Event) :
    sentFrames (a ++ b) = sentFrames a ++ sentFrames b := by
  simp [sentFrames]

theorem sentFrames_dataCallbacks (l : List PendingInterest) (d : Data) :
    sentFrames (l.map fun e => Event.dataCallback e.id e.interest d) = [] := by
  induction l with
  | nil => rfl
  | cons e rest ih => simp [sentFrames]

theorem finishEncoding_ok {hs : List Nat} {w : Nat} {c : Char} {nm : Name}
    (h : ¬ maxNdnPacketSize < (if hs.isEmpty then w else w + hs.sum)) :
    finishEncoding hs w c nm
      = Except.ok (if hs.isEmpty then w else w + hs.sum) := by
  simp only [finishEncoding]
  exact if_neg h

theorem finishEncoding_error {hs : List Nat} {w : Nat} {c : Char} {nm : Name}
    (h : maxNdnPacketSize < (if hs.isEmpty then w else w + hs.sum)) :
    finishEncoding hs w c nm
      = Except.error ⟨c, nm, if hs.isEmpty then w else w + hs.sum⟩ := by
  simp only [finishEncoding]
  exact if_pos h

/-- Characterization of `putData` on a well-sized Data: matched entries are
removed, APP matches get their callbacks, and the Data frame is sent
exactly when a forwarder match exists or no APP match exists. -/
theorem putData_eq (d : Data) (s : FaceState)
    (hfit : dataEncodedSize d ≤ maxNdnPacketSize) :
    putData d s
      = ⟨{ s with pendingInterestTable := removeMatched d s.pendingInterestTable },
         appMatchCallbacks d s.pendingInterestTable
           ++ (if hasForwarderMatch d s.pendingInterestTable
                 || !hasAppMatch d s.pendingInterestTable
               then [Event.send ⟨'D', d.name, dataEncodedSize d, none⟩] else []),
         none⟩ := by
  have henc : finishEncoding (dataLpHeaders d) d.wireSize 'D' d.name
      = Except.ok (dataEncodedSize d) := by
    refine finishEncoding_ok ?_
    rw [dataEncodedSize] at hfit
    exact Nat.not_lt.mpr hfit
  by_cases hc : (hasForwarderMatch d s.pendingInterestTable
      || !hasAppMatch d s.pendingInterestTable) = true
  · simp [putData, satisfyPendingInterests, satisfyLoop_eq, hc, henc,
      dataEncodedSize]
  · simp only [Bool.not_eq_true] at hc
    simp [putData, satisfyPendingInterests, satisfyLoop_eq, hc]

/-- If nothing in the table matches the Data, there is no APP match. -/
theorem hasAppMatch_of_noMatch {d : Data} {tbl : List PendingInterest}
    (hnone : ∀ e ∈ tbl, e.interest.matchesData d = false) :
    hasAppMatch d tbl = false := by
  simp only [hasAppMatch, List.any_eq_false]
  intro e he
  simp [hnone e he]

/-- C1: for every Data passed to `putData`, `satisfyPendingInterests`
visits every pending entry whose Interest matches the Data (removing them,
with APP matches getting their callback) and returns
`hasForwarderMatch || !hasAppMatch`; `putData` emits an outbound frame
exactly when that value is true, so a Data matching at least one APP entry
and no FORWARDER entry produces zero outbound frames, while a Data
matching no pending entry at all is still sent to the forwarder.  (The
packet is assumed within the size cap; the oversize path is claim C2.) -/
theorem putData_forwarding_decision (d : Data) (s : FaceState)
    (hfit : dataEncodedSize d ≤ maxNdnPacketSize) :
    (satisfyPendingInterests d s.pendingInterestTable).1
        = (hasForwarderMatch d s.pendingInterestTable
            || !hasAppMatch d s.pendingInterestTable)
      ∧ (putData d s).state.pendingInterestTable
          = removeMatched d s.pendingInterestTable
      ∧ (putData d s).events
          = appMatchCallbacks d s.pendingInterestTable
            ++ (if hasForwarderMatch d s.pendingInterestTable
                  || !hasAppMatch d s.pendingInterestTable
                then [Event.send ⟨'D', d.name, dataEncodedSize d, none⟩] else [])
      ∧ (hasAppMatch d s.pendingInterestTable = true →
          hasForwarderMatch d s.pendingInterestTable = false →
          sentFrames (putData d s).events = [])
      ∧ ((∀ e ∈ s.pendingInterestTable, e.interest.matchesData d = false) →
          sentFrames (putData d s).events
            = [⟨'D', d.name, dataEncodedSize d, none⟩]) := by
  have hput := putData_eq d s hfit
  refine ⟨by simp [satisfyPendingInterests, satisfyLoop_eq], by rw [hput],
    by rw [hput], ?_, ?_⟩
  · intro hA hF
    rw [hput]
    simp [sentFrames_append, appMatchCallbacks, sentFrames_dataCallbacks, hA, hF,
      sentFrames]
  · intro hnone
    have hA := hasAppMatch_of_noMatch hnone
    rw [hput]
    simp [sentFrames_append, appMatchCallbacks, sentFrames_dataCallbacks, hA,
      sentFrames]

/-- Witness for C1 at concrete inputs: with a single APP entry for `/A`
(and no FORWARDER entry), `put(Data /A/B)` emits no outbound frame. -/
theorem putData_forwarding_decision_witness :
    sentFrames (putData dataAB
        { emptyState with pendingInterestTable := [appEntryA] }).events = [] :=
  (putData_forwarding_decision dataAB
      { emptyState with pendingInterestTable := [appEntryA] }
      (by decide)).2.2.2.1 (by decide) (by decide)

/-- The Nack loop produces no send events (only Nack callbacks). -/
theorem nackLoop_no_sends (n : Nack) (tbl : List PendingInterest) :
    sentFrames (nackLoop n tbl).2.2 = [] := by
  induction tbl with
  | nil => rfl
  | cons e rest ih =>
    by_cases hm : n.interest.matchesInterest e.interest = true
    · rcases hrec : e.recordNack n with ⟨e2, o1⟩
      cases o1 with
      | none => simpa [nackLoop, hm, hrec] using ih
      | some out1 =>
        cases ho : e.origin <;> simpa [nackLoop, hm, hrec, ho, sentFrames] using ih
    · simp only [Bool.not_eq_true] at hm
      simpa [nackLoop, hm] using ih

/-- `putNack` only ever modifies the pending-interest table, and exactly to
what the Nack loop leaves of it. -/
theorem putNack_state (n : Nack) (s : FaceState) :
    (putNack n s).state.interestFilterTable = s.interestFilterTable
  ∧ (putNack n s).state.registeredPrefixTable = s.registeredPrefixTable
  ∧ (putNack n s).state.pendingInterestTable
      = (nackPendingInterests n s.pendingInterestTable).2.1 := by
  rcases hr : nackPendingInterests n s.pendingInterestTable with ⟨o, tbl, evs⟩
  cases o with
  | none => simp [putNack, hr]
  | some out =>
    cases hfe : finishEncoding (nackLpHeaders out) out.interest.wireSize 'N'
        out.interest.name with
    | error err => simp [putNack, hr, hfe]
    | ok w => simp [putNack, hr, hfe]

/-- C2 counterexample: expressing an oversized Interest from a fresh Face
throws `OversizedPacketError` but does NOT leave the tables unchanged —
the pending-interest entry has already been inserted and remains. -/
theorem oversize_untouched_tables_counterexample :
    (expressInterest 1 bigInterest emptyState).thrown
        = some ⟨'I', [1], 9000⟩
      ∧ (expressInterest 1 bigInterest emptyState).state.pendingInterestTable
        ≠ emptyState.pendingInterestTable := by
  decide

/-- C2 amended: a packet whose final wire encoding exceeds 8800 bytes makes
the operation throw `OversizedPacketError` carrying the packet kind, name
and size, with no frame sent, and the interest-filter and
registered-prefix tables are unchanged; but the pending-interest table
keeps the mutations made before the encoding step (`expressInterest` has
already inserted its entry; `putData`/`putNack` have already removed the
satisfied entries and run their callbacks). -/
theorem oversize_error_amended (i : Interest) (d : Data) (n : Nack)
    (pid : Nat) (s : FaceState) :
    (maxNdnPacketSize < interestEncodedSize i →
        (expressInterest pid i s).thrown
            = some ⟨'I', i.name, interestEncodedSize i⟩
          ∧ (expressInterest pid i s).events = []
          ∧ (expressInterest pid i s).state.interestFilterTable
            = s.interestFilterTable
          ∧ (expressInterest pid i s).state.registeredPrefixTable
            = s.registeredPrefixTable
          ∧ (expressInterest pid i s).state.pendingInterestTable
            = s.pendingInterestTable ++ [⟨pid, i, Origin.app, 1, 0, none⟩])
  ∧ (maxNdnPacketSize < dataEncodedSize d →
        (putData d s).thrown
            = (if hasForwarderMatch d s.pendingInterestTable
                  || !hasAppMatch d s.pendingInterestTable
                then some ⟨'D', d.name, dataEncodedSize d⟩ else none)
          ∧ sentFrames (putData d s).events = []
          ∧ (putData d s).state.interestFilterTable = s.interestFilterTable
          ∧ (putData d s).state.registeredPrefixTable = s.registeredPrefixTable
          ∧ (putData d s).state.pendingInterestTable
            = removeMatched d s.pendingInterestTable)
  ∧ (∀ out, (nackPendingInterests n s.pendingInterestTable).1 = some out →
        maxNdnPacketSize < nackEncodedSize out →
          (putNack n s).thrown = some ⟨'N', out.interest.name, nackEncodedSize out⟩
        ∧ sentFrames (putNack n s).events = []
        ∧ (putNack n s).state.interestFilterTable = s.interestFilterTable
        ∧ (putNack n s).state.registeredPrefixTable = s.registeredPrefixTable) := by
  refine ⟨?_, ?_, ?_⟩
  · intro hbig
    have henc : finishEncoding (interestLpHeaders i) i.wireSize 'I' i.name
        = Except.error ⟨'I', i.name, interestEncodedSize i⟩ := by
      rw [interestEncodedSize] at hbig ⊢
      exact finishEncoding_error hbig
    simp [expressInterest, henc, PendingInterest.recordForwarding]
  · intro hbig
    have henc : finishEncoding (dataLpHeaders d) d.wireSize 'D' d.name
        = Except.error ⟨'D', d.name, dataEncodedSize d⟩ := by
      rw [dataEncodedSize] at hbig ⊢
      exact finishEncoding_error hbig
    by_cases hc : (hasForwarderMatch d s.pendingInterestTable
        || !hasAppMatch d s.pendingInterestTable) = true
    · simp [putData, satisfyPendingInterests, satisfyLoop_eq, hc, henc,
        appMatchCallbacks, sentFrames_dataCallbacks, removeMatched]
    · simp only [Bool.not_eq_true] at hc
      simp [putData, satisfyPendingInterests, satisfyLoop_eq, hc,
        appMatchCallbacks, sentFrames_dataCallbacks, removeMatched]
  · intro out hout hbig
    have hempty : (nackLpHeaders out).isEmpty = false := by
      simp [nackLpHeaders]
    have henc : finishEncoding (nackLpHeaders out) out.interest.wireSize 'N'
        out.interest.name
        = Except.error ⟨'N', out.interest.name, nackEncodedSize out⟩ := by
      have := @finishEncoding_error (nackLpHeaders out) out.interest.wireSize
        'N' out.interest.name
        (by rw [hempty]; simpa [nackEncodedSize] using hbig)
      simpa [hempty, nackEncodedSize] using this
    obtain ⟨hf, hp, _hpend⟩ := putNack_state n s
    rcases hr : nackPendingInterests n s.pendingInterestTable with ⟨o, tbl, evs⟩
    rw [hr] at hout
    simp only at hout
    subst hout
    have hevs : sentFrames evs = [] := by
      have := nackLoop_no_sends n s.pendingInterestTable
      rw [show nackLoop n s.pendingInterestTable
          = nackPendingInterests n s.pendingInterestTable from rfl, hr] at this
      exact this
    refine ⟨?_, ?_, hf, hp⟩
    · simp [putNack, hr, henc]
    · simp [putNack, hr, henc, hevs]

/-- Witness for the amended C2: the oversized Interest throws with kind
`I`, its name, and size 9000, while the filter table stays empty and the
entry remains pending. -/
theorem oversize_error_amended_witness :
    (expressInterest 1 bigInterest emptyState).thrown = some ⟨'I', [1], 9000⟩ :=
  (((oversize_error_amended bigInterest dataAB nackANoRoute 1 emptyState).1)
    (by decide)).1

/-- If no pending entry matches the Nacked Interest, the Nack loop is a
no-op. -/
theorem nackLoop_noMatch (n : Nack) (tbl : List PendingInterest)
    (hnone : ∀ e ∈ tbl, n.interest.matchesInterest e.interest = false) :
    nackLoop n tbl = (none, tbl, []) := by
  induction tbl with
  | nil => rfl
  | cons e rest ih =>
    have h1 := hnone e (by simp)
    have h2 := ih fun x hx => hnone x (by simp [hx])
    simp [nackLoop, h1, h2]

/-- An emitted outbound Nack is the completed accumulator of some matching
FORWARDER-origin entry of the table. -/
theorem nackLoop_out_mem (n : Nack) (tbl : List PendingInterest) (out : Nack)
    (h : (nackLoop n tbl).1 = some out) :
    ∃ e ∈ tbl, e.origin = Origin.forwarder
      ∧ n.interest.matchesInterest e.interest = true
      ∧ (e.recordNack n).2 = some out := by
  induction tbl with
  | nil => simp [nackLoop] at h
  | cons e rest ih =>
    by_cases hm : n.interest.matchesInterest e.interest = true
    · rcases hrec : e.recordNack n with ⟨e2, o1⟩
      cases o1 with
      | none =>
        rw [nackLoop, if_pos hm, hrec] at h
        obtain ⟨x, hx, hrest⟩ := ih h
        exact ⟨x, by simp [hx], hrest⟩
      | some out1 =>
        cases ho : e.origin with
        | app =>
          rw [nackLoop, if_pos hm, hrec] at h
          simp only [ho] at h
          obtain ⟨x, hx, hrest⟩ := ih h
          exact ⟨x, by simp [hx], hrest⟩
        | forwarder =>
          rw [nackLoop, if_pos hm, hrec] at h
          simp only [ho] at h
          cases hrest : (nackLoop n rest).1 with
          | none =>
            refine ⟨e, by simp, ho, hm, ?_⟩
            rw [hrec]
            rw [hrest] at h
            simpa using h
          | some o2 =>
            rw [hrest] at h
            simp only [Option.getD_some, Option.some.injEq] at h
            subst h
            obtain ⟨x, hx, hr2⟩ := ih hrest
            exact ⟨x, by simp [hx], hr2⟩
    · simp only [Bool.not_eq_true] at hm
      rw [nackLoop, if_neg (by simp [hm])] at h
      obtain ⟨x, hx, hrest⟩ := ih h
      exact ⟨x, by simp [hx], hrest⟩

/-- C3 counterexample: two FORWARDER entries for `/A` complete their Nack
accumulators in the same `putNack` call; entry 1's accumulated least-severe
reason is Congestion, entry 2's is NoRoute, and the single outbound Nack
carries NoRoute — the reason of the LAST completing entry, which is the
more severe of the two.  This refutes "it carries the least-severe reason
across those entries". -/
theorem putNack_leastSevere_counterexample :
    nackScenarioState.pendingInterestTable
        = [⟨1, interestAExact, Origin.forwarder, 2, 1, some nackACongestion⟩,
           ⟨2, interestAExact, Origin.forwarder, 1, 0, none⟩]
      ∧ nackScenarioResult.state.pendingInterestTable = []
      ∧ sentFrames nackScenarioResult.events
        = [⟨'N', [1], 104, some NackReason.noRoute⟩]
      ∧ NackReason.congestion.severity < NackReason.noRoute.severity := by
  decide

/-- The outbound Nack computed by the loop is exactly the completed
accumulator of the last matching FORWARDER entry in insertion order. -/
theorem nackLoop_fst_eq_lastForwarderCompletion (n : Nack)
    (tbl : List PendingInterest) :
    (nackLoop n tbl).1 = lastForwarderCompletion n tbl := by
  induction tbl with
  | nil => rfl
  | cons e rest ih =>
    by_cases hm : n.interest.matchesInterest e.interest = true
    · rcases hrec : e.recordNack n with ⟨e2, o1⟩
      cases o1 with
      | none =>
        have h1 : (nackLoop n (e :: rest)).1 = (nackLoop n rest).1 := by
          simp [nackLoop, hm, hrec]
        have h2 : lastForwarderCompletion n (e :: rest)
            = lastForwarderCompletion n rest := by
          cases hrest : lastForwarderCompletion n rest with
          | none => simp [lastForwarderCompletion, hrest, hrec]
          | some x => simp [lastForwarderCompletion, hrest]
        rw [h1, h2]
        exact ih
      | some out1 =>
        cases ho : e.origin with
        | app =>
          have h1 : (nackLoop n (e :: rest)).1 = (nackLoop n rest).1 := by
            simp [nackLoop, hm, hrec, ho]
          have h2 : lastForwarderCompletion n (e :: rest)
              = lastForwarderCompletion n rest := by
            cases hrest : lastForwarderCompletion n rest with
            | none => simp [lastForwarderCompletion, hrest, ho]
            | some x => simp [lastForwarderCompletion, hrest]
          rw [h1, h2]
          exact ih
        | forwarder =>
          have h1 : (nackLoop n (e :: rest)).1
              = some ((nackLoop n rest).1.getD out1) := by
            simp [nackLoop, hm, hrec, ho]
          cases hrest : lastForwarderCompletion n rest with
          | none =>
            have h2 : lastForwarderCompletion n (e :: rest) = some out1 := by
              simp [lastForwarderCompletion, hrest, hm, ho, hrec]
            rw [h1, h2, ih, hrest]
            simp
          | some x =>
            have h2 : lastForwarderCompletion n (e :: rest) = some x := by
              simp [lastForwarderCompletion, hrest]
            rw [h1, h2, ih, hrest]
            simp
    · simp only [Bool.not_eq_true] at hm
      have h1 : (nackLoop n (e :: rest)).1 = (nackLoop n rest).1 := by
        simp [nackLoop, hm]
      have h2 : lastForwarderCompletion n (e :: rest)
          = lastForwarderCompletion n rest := by
        cases hrest : lastForwarderCompletion n rest with
        | none => simp [lastForwarderCompletion, hrest, hm]
        | some x => simp [lastForwarderCompletion, hrest]
      rw [h1, h2]
      exact ih

/-- A completed accumulator carries the least-severe reason among the Nacks
the entry has recorded: no more severe than the incoming Nack, and no more
severe than the previously accumulated one. -/
theorem recordNack_leastSevere (n : Nack) (e : PendingInterest) (out : Nack)
    (hout : (e.recordNack n).2 = some out) :
    out.reason.severity ≤ n.reason.severity
  ∧ ∀ m, e.leastSevereNack = some m →
      out.reason.severity ≤ m.reason.severity := by
  simp only [PendingInterest.recordNack] at hout
  by_cases hlt : e.nNacks + 1 < e.nSent
  · simp [hlt] at hout
  · rw [if_neg hlt, Option.some.injEq] at hout
    subst hout
    constructor
    · cases hacc : e.leastSevereNack with
      | none => simp [keepLeastSevere]
      | some m =>
        simp only [keepLeastSevere, hacc]
        by_cases hs : n.reason.severity < m.reason.severity
        · simp [hs]
        · rw [if_neg hs]
          exact Nat.le_of_not_lt hs
    · intro m hacc
      simp only [keepLeastSevere, hacc]
      by_cases hs : n.reason.severity < m.reason.severity
      · rw [if_pos hs]
        exact Nat.le_of_lt hs
      · rw [if_neg hs]

/-- C3 amended: `putNack` emits at most one outbound Nack per call; a Nack
whose Interest matches no pending entry yields no outbound Nack and leaves
everything unchanged; the outbound Nack, when any, is exactly the completed
accumulator of the LAST matching FORWARDER entry in insertion order to
complete in this call (`lastForwarderCompletion`) — not necessarily the
least severe across all completing entries — and each completed accumulator
carries that entry's least-severe recorded reason. -/
theorem putNack_amended (n : Nack) (s : FaceState) :
    (sentFrames (putNack n s).events).length ≤ 1
  ∧ ((∀ e ∈ s.pendingInterestTable, n.interest.matchesInterest e.interest = false) →
      putNack n s = ⟨s, [], none⟩)
  ∧ (nackPendingInterests n s.pendingInterestTable).1
      = lastForwarderCompletion n s.pendingInterestTable
  ∧ (∀ (e : PendingInterest) (out : Nack), (e.recordNack n).2 = some out →
      out.reason.severity ≤ n.reason.severity
      ∧ ∀ m, e.leastSevereNack = some m →
          out.reason.severity ≤ m.reason.severity)
  ∧ (∀ out, (nackPendingInterests n s.pendingInterestTable).1 = some out →
      (∃ e ∈ s.pendingInterestTable, e.origin = Origin.forwarder
        ∧ n.interest.matchesInterest e.interest = true
        ∧ (e.recordNack n).2 = some out)
      ∧ (nackEncodedSize out ≤ maxNdnPacketSize →
          sentFrames (putNack n s).events
            = [⟨'N', out.interest.name, nackEncodedSize out, some out.reason⟩])) := by
  have hsends : sentFrames (nackLoop n s.pendingInterestTable).2.2 = [] :=
    nackLoop_no_sends n s.pendingInterestTable
  refine ⟨?_, ?_,
    nackLoop_fst_eq_lastForwarderCompletion n s.pendingInterestTable,
    fun e out hout => recordNack_leastSevere n e out hout, ?_⟩
  · rcases hr : nackPendingInterests n s.pendingInterestTable with ⟨o, tbl, evs⟩
    have hevs : sentFrames evs = [] := by
      rw [show nackLoop n s.pendingInterestTable
          = nackPendingInterests n s.pendingInterestTable from rfl, hr] at hsends
      exact hsends
    cases o with
    | none =>
      have hred : (putNack n s).events = evs := by simp [putNack, hr]
      rw [hred, hevs]
      simp
    | some out =>
      cases hfe : finishEncoding (nackLpHeaders out) out.interest.wireSize 'N'
          out.interest.name with
      | error err =>
        have hred : (putNack n s).events = evs := by simp [putNack, hr, hfe]
        rw [hred, hevs]
        simp
      | ok w =>
        have hred : (putNack n s).events
            = evs ++ [Event.send ⟨'N', out.interest.name, w, some out.reason⟩] := by
          simp [putNack, hr, hfe]
        rw [hred, sentFrames_append, hevs]
        simp [sentFrames]
  · intro hnone
    have hl : nackPendingInterests n s.pendingInterestTable
        = (none, s.pendingInterestTable, []) := nackLoop_noMatch n _ hnone
    simp [putNack, hl]
  · intro out hout
    refine ⟨nackLoop_out_mem n s.pendingInterestTable out hout, ?_⟩
    intro hfit
    rcases hr : nackPendingInterests n s.pendingInterestTable with ⟨o, tbl, evs⟩
    rw [hr] at hout
    simp only at hout
    subst hout
    have hevs : sentFrames evs = [] := by
      rw [show nackLoop n s.pendingInterestTable
          = nackPendingInterests n s.pendingInterestTable from rfl, hr] at hsends
      exact hsends
    have hempty : (nackLpHeaders out).isEmpty = false := by
      simp [nackLpHeaders]
    have henc : finishEncoding (nackLpHeaders out) out.interest.wireSize 'N'
        out.interest.name = Except.ok (nackEncodedSize out) := by
      have := @finishEncoding_ok (nackLpHeaders out) out.interest.wireSize
        'N' out.interest.name
        (by rw [hempty]; simp only [Bool.false_eq_true, if_false]
            exact Nat.not_lt.mpr (by simpa [nackEncodedSize] using hfit))
      simpa [hempty, nackEncodedSize] using this
    have hred : (putNack n s).events
        = evs ++ [Event.send ⟨'N', out.interest.name, nackEncodedSize out,
            some out.reason⟩] := by
      simp [putNack, hr, henc]
    rw [hred, sentFrames_append, hevs]
    simp [sentFrames]

/-- Witness for the amended C3: a Nack matching no pending entry (fresh
Face) yields no outbound Nack and changes nothing; and on the two-entry
scenario the outbound Nack is the last completing entry's accumulator. -/
theorem putNack_amended_witness :
    putNack nackANoRoute emptyState = ⟨emptyState, [], none⟩
  ∧ (nackPendingInterests nackANoRoute nackScenarioState.pendingInterestTable).1
      = lastForwarderCompletion nackANoRoute nackScenarioState.pendingInterestTable :=
  ⟨(putNack_amended nackANoRoute emptyState).2.1 (by decide),
   (putNack_amended nackANoRoute nackScenarioState).2.2.1⟩

/-- `putData` always leaves the non-pending tables alone and always sets
the pending table to the unmatched entries, throw or not. -/
theorem putData_state (d : Data) (s : FaceState) :
    (putData d s).state.interestFilterTable = s.interestFilterTable
  ∧ (putData d s).state.registeredPrefixTable = s.registeredPrefixTable
  ∧ (putData d s).state.pendingInterestTable
      = removeMatched d s.pendingInterestTable := by
  by_cases hc : (hasForwarderMatch d s.pendingInterestTable
      || !hasAppMatch d s.pendingInterestTable) = true
  · cases hfe : finishEncoding (dataLpHeaders d) d.wireSize 'D' d.name with
    | error err =>
      simp [putData, satisfyPendingInterests, satisfyLoop_eq, hc, hfe]
    | ok w =>
      simp [putData, satisfyPendingInterests, satisfyLoop_eq, hc, hfe]
  · simp only [Bool.not_eq_true] at hc
    simp [putData, satisfyPendingInterests, satisfyLoop_eq, hc]

/-- After removal of the matched entries, nothing matching the Data
remains. -/
theorem removeMatched_noMatch (d : Data) (tbl : List PendingInterest) :
    hasAppMatch d (removeMatched d tbl) = false
  ∧ hasForwarderMatch d (removeMatched d tbl) = false := by
  constructor
  · simp only [hasAppMatch, removeMatched, List.any_eq_false]
    intro e he
    have h2 := (List.mem_filter.mp he).2
    simp only [Bool.not_eq_true'] at h2
    simp [h2]
  · simp only [hasForwarderMatch, removeMatched, List.any_eq_false]
    intro e he
    have h2 := (List.mem_filter.mp he).2
    simp only [Bool.not_eq_true'] at h2
    simp [h2]

/-- C4 counterexample: with one APP entry for `/A`, the first
`put(Data /A/B)` satisfies it (callback, entry removed, no outbound
frame), but the SECOND `put` of the same Data is not silently ignored: the
pending table no longer holds the Interest, so the Data counts as
unsolicited and one outbound frame IS produced. -/
theorem putData_resend_counterexample :
    (putData dataAB { emptyState with pendingInterestTable := [appEntryA] }).events
        = [Event.dataCallback 1 interestA dataAB]
      ∧ (putData dataAB
          { emptyState with pendingInterestTable := [appEntryA] }).state.pendingInterestTable
        = []
      ∧ sentFrames (putData dataAB
          (putData dataAB
            { emptyState with pendingInterestTable := [appEntryA] }).state).events
        = [⟨'D', [1, 2], 120, none⟩] := by
  decide

/-- C4 amended: after a `put(Data)` has run, the pending table no longer
holds any Interest matching that Data; but a subsequent `put` for the same
Data is NOT silently ignored — finding no matching pending entry, it
treats the Data as unsolicited and produces exactly one outbound frame (and
no callbacks), leaving the pending table unchanged. -/
theorem putData_resend_amended (d : Data) (s : FaceState)
    (hfit : dataEncodedSize d ≤ maxNdnPacketSize) :
    hasAppMatch d (putData d s).state.pendingInterestTable = false
  ∧ hasForwarderMatch d (putData d s).state.pendingInterestTable = false
  ∧ (∀ s2 : FaceState,
      (∀ e ∈ s2.pendingInterestTable, e.interest.matchesData d = false) →
        (putData d s2).events = [Event.send ⟨'D', d.name, dataEncodedSize d, none⟩]
        ∧ (putData d s2).state.pendingInterestTable = s2.pendingInterestTable) := by
  obtain ⟨_, _, hpend⟩ := putData_state d s
  refine ⟨by rw [hpend]; exact (removeMatched_noMatch d s.pendingInterestTable).1,
    by rw [hpend]; exact (removeMatched_noMatch d s.pendingInterestTable).2, ?_⟩
  intro s2 hnone
  have hA := hasAppMatch_of_noMatch hnone
  have hcb : appMatchCallbacks d s2.pendingInterestTable = [] := by
    simp only [appMatchCallbacks, List.map_eq_nil_iff, List.filter_eq_nil_iff]
    intro e he
    simp [hnone e he]
  have hkeep : removeMatched d s2.pendingInterestTable = s2.pendingInterestTable := by
    simp only [removeMatched]
    rw [List.filter_eq_self]
    intro e he
    simp [hnone e he]
  have hput := putData_eq d s2 hfit
  rw [hput]
  simp [hcb, hkeep, hA]

/-- Witness for the amended C4 at concrete inputs: re-putting `/A/B` after
it satisfied the only pending Interest sends exactly one unsolicited
frame. -/
theorem putData_resend_amended_witness :
    (putData dataAB
        (putData dataAB
          { emptyState with pendingInterestTable := [appEntryA] }).state).events
      = [Event.send ⟨'D', [1, 2], 120, none⟩] :=
  ((putData_resend_amended dataAB
      { emptyState with pendingInterestTable := [appEntryA] } (by decide)).2.2
    (putData dataAB { emptyState with pendingInterestTable := [appEntryA] }).state
    (by decide)).1

/-- Characterization of `expressInterest` on a well-sized Interest: the
APP entry (already marked as forwarded to the wire) is appended to the
pending table after dispatch, and the events are the outbound send followed
by the loopback-dispatch events. -/
theorem expressInterest_ok_eq (pid : Nat) (i : Interest) (s : FaceState)
    (hfit : interestEncodedSize i ≤ maxNdnPacketSize) :
    expressInterest pid i s
      = ⟨{ s with pendingInterestTable := s.pendingInterestTable
            ++ [(dispatchInterest ⟨pid, i, Origin.app, 1, 0, none⟩ i
                  s.interestFilterTable).1] },
         Event.send ⟨'I', i.name, interestEncodedSize i, none⟩
           :: (dispatchInterest ⟨pid, i, Origin.app, 1, 0, none⟩ i
                s.interestFilterTable).2,
         none⟩ := by
  have henc : finishEncoding (interestLpHeaders i) i.wireSize 'I' i.name
      = Except.ok (interestEncodedSize i) := by
    refine finishEncoding_ok ?_
    rw [interestEncodedSize] at hfit
    exact Nat.not_lt.mpr hfit
  rcases hd : dispatchInterest ⟨pid, i, Origin.app, 1, 0, none⟩ i
      s.interestFilterTable with ⟨e2, evs⟩
  simp [expressInterest, henc, PendingInterest.recordForwarding, hd]

/-- Characterization of `expressInterest` on an oversized Interest: the
entry is inserted, then the encoding throws; nothing is sent and no
dispatch happens. -/
theorem expressInterest_err_eq (pid : Nat) (i : Interest) (s : FaceState)
    (hbig : maxNdnPacketSize < interestEncodedSize i) :
    expressInterest pid i s
      = ⟨{ s with pendingInterestTable := s.pendingInterestTable
            ++ [⟨pid, i, Origin.app, 1, 0, none⟩] },
         [], some ⟨'I', i.name, interestEncodedSize i⟩⟩ := by
  have henc : finishEncoding (interestLpHeaders i) i.wireSize 'I' i.name
      = Except.error ⟨'I', i.name, interestEncodedSize i⟩ := by
    rw [interestEncodedSize] at hbig ⊢
    exact finishEncoding_error hbig
  simp [expressInterest, henc, PendingInterest.recordForwarding]

/-- C5: in `expressInterest`, the outbound send of the encoded Interest is
strictly before the loopback dispatch: when the operation does not throw,
the first event is the send of the wire copy, and every filter-callback
event sits at a strictly later position (when it throws, nothing runs at
all). -/
theorem expressInterest_send_precedes_loopback (pid : Nat) (i : Interest)
    (s : FaceState) :
    ((expressInterest pid i s).thrown = none →
      (expressInterest pid i s).events.head?
        = some (Event.send ⟨'I', i.name, interestEncodedSize i, none⟩))
  ∧ (∀ j fid i2, (expressInterest pid i s).events.get? j
      = some (Event.interestCallback fid i2) → 0 < j) := by
  by_cases hbig : maxNdnPacketSize < interestEncodedSize i
  · rw [expressInterest_err_eq pid i s hbig]
    refine ⟨?_, ?_⟩
    · intro h
      simp at h
    · intro j fid i2 h
      simp at h
  · have hfit : interestEncodedSize i ≤ maxNdnPacketSize := Nat.not_lt.mp hbig
    rw [expressInterest_ok_eq pid i s hfit]
    refine ⟨fun _ => rfl, ?_⟩
    intro j fid i2 h
    cases j with
    | zero => simp at h
    | succ k => exact Nat.succ_pos k

/-- Witness for C5: expressing `/A` on a Face with one loopback filter on
`/` — the first event is the outbound send. -/
theorem expressInterest_send_precedes_loopback_witness :
    (expressInterest 1 interestA
        { emptyState with interestFilterTable := [⟨1, [], true⟩] }).events.head?
      = some (Event.send ⟨'I', [1], 100, none⟩) :=
  (expressInterest_send_precedes_loopback 1 interestA
      { emptyState with interestFilterTable := [⟨1, [], true⟩] }).1 (by decide)

/-- C6: `unregisterPrefix` with a RecordId absent from the
registered-prefix table invokes onFailure (when provided) with the
unrecognized-handle text, issues no RibUnregister command, and leaves the
whole state — all three tables included — unchanged; the function returns
normally (nothing is thrown on this path). -/
theorem unregisterPrefix_unknown_handle (id : Nat) (hs hf : Bool)
    (outcome : ControlOutcome) (s : FaceState)
    (habsent : ∀ r ∈ s.registeredPrefixTable, r.id ≠ id) :
    unregisterPrefix id hs hf outcome s
      = (s, if hf
            then [Event.unregisterFailureCallback "Unrecognized RegisteredPrefixHandle"]
            else []) := by
  have hfind : s.registeredPrefixTable.find? (fun r => r.id == id) = none := by
    rw [List.find?_eq_none]
    intro x hx
    simpa using habsent x hx
  simp [unregisterPrefix, hfind]

/-- Witness for C6: unregistering the never-allocated id 5 on a fresh Face
only reports the unrecognized handle. -/
theorem unregisterPrefix_unknown_handle_witness :
    unregisterPrefix 5 true true ControlOutcome.success emptyState
      = (emptyState,
         [Event.unregisterFailureCallback "Unrecognized RegisteredPrefixHandle"]) :=
  unregisterPrefix_unknown_handle 5 true true ControlOutcome.success emptyState
    (by decide)

/-- C7: `registerPrefix` allocates and returns the RecordId synchronously,
independently of how (and before) the RibRegister command completes; on
failure onFailure(prefix, text) runs and neither a RegisteredPrefix record
nor an InterestFilterRecord is inserted; on success the RegisteredPrefix
record with that id, the prefix, the options and the paired filterId is
inserted — and the filter record too when a filter was given — with the
insertions strictly before the onSuccess(prefix) event in the trace. -/
theorem registerPrefix_spec (prefixName : Name) (flags options : Nat)
    (filterOpt : Option (Name × Bool)) (hs : Bool) (s : FaceState) :
    (∀ o1 o2 : ControlOutcome,
      (registerPrefix prefixName flags options filterOpt hs o1 s).returnedId
        = (registerPrefix prefixName flags options filterOpt hs o2 s).returnedId)
  ∧ (registerPrefix prefixName flags options filterOpt hs
      ControlOutcome.success s).returnedId = s.nextPrefixId
  ∧ (∀ text, registerPrefix prefixName flags options filterOpt hs
        (ControlOutcome.failure text) s
      = ⟨s.nextPrefixId, { s with nextPrefixId := s.nextPrefixId + 1 },
         [Event.ribRegisterCommand prefixName flags,
          Event.registerFailureCallback prefixName text]⟩)
  ∧ ((registerPrefix prefixName flags options filterOpt hs
        ControlOutcome.success s).state.registeredPrefixTable
      = s.registeredPrefixTable
        ++ [⟨s.nextPrefixId, prefixName, options,
             match filterOpt with | none => 0 | some _ => s.nextFilterId⟩])
  ∧ (filterOpt = none →
      (registerPrefix prefixName flags options filterOpt hs
          ControlOutcome.success s).state.interestFilterTable
        = s.interestFilterTable)
  ∧ (∀ fname loopback, filterOpt = some (fname, loopback) →
      (registerPrefix prefixName flags options filterOpt hs
          ControlOutcome.success s).state.interestFilterTable
        = s.interestFilterTable ++ [⟨s.nextFilterId, fname, loopback⟩])
  ∧ ((registerPrefix prefixName flags options filterOpt hs
        ControlOutcome.success s).events
      = [Event.ribRegisterCommand prefixName flags]
        ++ (match filterOpt with
            | none => []
            | some _ => [Event.filterRecordInserted s.nextFilterId])
        ++ [Event.prefixRecordInserted s.nextPrefixId]
        ++ (if hs then [Event.registerSuccessCallback prefixName] else [])) := by
  refine ⟨?_, ?_, ?_, ?_, ?_, ?_, ?_⟩
  · intro o1 o2
    cases o1 <;> cases o2 <;> cases filterOpt <;> simp [registerPrefix]
  · cases filterOpt <;> simp [registerPrefix]
  · intro text
    simp [registerPrefix]
  · cases filterOpt <;> simp [registerPrefix]
  · intro h
    subst h
    simp [registerPrefix]
  · intro fname loopback h
    subst h
    simp [registerPrefix]
  · cases filterOpt <;> simp [registerPrefix]

/-- Witness for C7: a successful registration of `/A` with a paired filter
on a fresh Face inserts the records and reports success in order. -/
theorem registerPrefix_spec_witness :
    (registerPrefix [1] 1 7 (some ([1], true)) true
        ControlOutcome.success emptyState).state.interestFilterTable
      = [⟨1, [1], true⟩]
  ∧ (registerPrefix [1] 1 7 (some ([1], true)) true
        ControlOutcome.success emptyState).events
      = [Event.ribRegisterCommand [1] 1, Event.filterRecordInserted 1,
         Event.prefixRecordInserted 1, Event.registerSuccessCallback [1]] :=
  ⟨(registerPrefix_spec [1] 1 7 (some ([1], true)) true
      emptyState).2.2.2.2.2.1 [1] true rfl,
   (registerPrefix_spec [1] 1 7 (some ([1], true)) true
      emptyState).2.2.2.2.2.2⟩

/-- `recordForwarding` changes neither what an entry matches nor its id. -/
theorem doesMatch_recordForwarding (f : InterestFilterRecord)
    (e : PendingInterest) :
    f.doesMatch e.recordForwarding = f.doesMatch e := rfl

theorem recordForwarding_id (e : PendingInterest) :
    e.recordForwarding.id = e.id := rfl

/-- The dispatch trace is, per matching filter in insertion order, a
forwarding-recorded step followed by the filter's callback. -/
theorem dispatchInterest_events (i : Interest) :
    ∀ (fs : List InterestFilterRecord) (entry : PendingInterest),
      (dispatchInterest entry i fs).2
        = (fs.filter fun f => f.doesMatch entry).flatMap
            (fun f => [Event.forwardingRecorded entry.id,
                       Event.interestCallback f.id i]) := by
  intro fs
  induction fs with
  | nil => intro entry; rfl
  | cons f rest ih =>
    intro entry
    by_cases hm : f.doesMatch entry = true
    · rcases hd : dispatchInterest entry.recordForwarding i rest with ⟨e2, evs⟩
      have ihr := ih entry.recordForwarding
      rw [hd] at ihr
      simp only [doesMatch_recordForwarding, recordForwarding_id] at ihr
      simp [dispatchInterest, hm, hd, ihr, List.filter_cons]
    · simp only [Bool.not_eq_true] at hm
      simp [dispatchInterest, hm, ih entry, List.filter_cons]

/-- Counting callbacks in a dispatch-shaped trace counts the filters with
the given id. -/
theorem countCallbacks_bind (i : Interest) (fid eid : Nat)
    (fs : List InterestFilterRecord) :
    countCallbacks fid (fs.flatMap fun f =>
        [Event.forwardingRecorded eid, Event.interestCallback f.id i])
      = (fs.filter fun f => f.id == fid).length := by
  induction fs with
  | nil => rfl
  | cons f rest ih =>
    have ih2 := ih
    simp only [countCallbacks] at ih2
    cases hf : f.id == fid <;>
      simp [countCallbacks, List.filter_cons, hf, ih2]

/-- With unique filter ids, the filters that both pass a predicate and
carry a given member's id are exactly that member (when it passes). -/
theorem filter_id_unique (p : InterestFilterRecord → Bool) :
    ∀ (fs : List InterestFilterRecord) (f0 : InterestFilterRecord),
      f0 ∈ fs → (fs.map InterestFilterRecord.id).Nodup →
      ((fs.filter p).filter fun g => g.id == f0.id).length
        = if p f0 then 1 else 0 := by
  intro fs
  induction fs with
  | nil =>
    intro f0 h
    simp at h
  | cons g rest ih =>
    intro f0 hf hnodup
    simp only [List.map_cons, List.nodup_cons] at hnodup
    obtain ⟨hgid, hnd⟩ := hnodup
    rcases List.mem_cons.mp hf with h | h
    · subst h
      have hrest : ((rest.filter p).filter fun x => x.id == f0.id) = [] := by
        rw [List.filter_eq_nil_iff]
        intro x hx hcontra
        have hxmem : x ∈ rest := (List.mem_filter.mp hx).1
        have hxid : x.id ∈ rest.map InterestFilterRecord.id :=
          List.mem_map_of_mem _ hxmem
        have hxeq : x.id = f0.id := by simpa using hcontra
        rw [hxeq] at hxid
        exact hgid hxid
      cases hp : p f0
      · simp [List.filter_cons, hp, hrest]
      · simp [List.filter_cons, hp, hrest]
    · have hne : (g.id == f0.id) = false := by
        have hfid : f0.id ∈ rest.map InterestFilterRecord.id :=
          List.mem_map_of_mem _ h
        rw [beq_eq_false_iff_ne]
        intro hcontra
        rw [hcontra] at hgid
        exact hgid hfid
      cases hp : p g
      · simp only [List.filter_cons, hp, if_false, Bool.false_eq_true]
        exact ih f0 h hnd
      · simp only [List.filter_cons, hp, if_true, hne, Bool.false_eq_true]
        exact ih f0 h hnd

/-- A dispatch-shaped trace records a forwarding immediately before each
callback. -/
theorem recordedBeforeCallback_bind (i : Interest) (eid : Nat)
    (fs : List InterestFilterRecord) :
    recordedBeforeCallback (fs.flatMap fun f =>
        [Event.forwardingRecorded eid, Event.interestCallback f.id i]) = true := by
  induction fs with
  | nil => rfl
  | cons f rest ih => simpa [recordedBeforeCallback] using ih

theorem countCallbacks_send_cons (fid : Nat) (fr : Frame) (evs : List Event) :
    countCallbacks fid (Event.send fr :: evs) = countCallbacks fid evs := by
  simp [countCallbacks, List.filter_cons]

theorem recordedBeforeCallback_send_cons (fr : Frame) (evs : List Event) :
    recordedBeforeCallback (Event.send fr :: evs) = recordedBeforeCallback evs := by
  cases evs with
  | nil => rfl
  | cons e rest => cases e <;> rfl

/-- C8: for an Interest expressed via `expressInterest` (APP origin) on a
Face with uniquely-identified filters, a filter with allowLoopback = false
is never invoked; a matching filter with allowLoopback = true is invoked
exactly once; and every filter callback in the trace is immediately
preceded by recording one more dispatched destination on the pending
entry. -/
theorem expressInterest_loopback_dispatch (pid : Nat) (i : Interest)
    (s : FaceState) (hfit : interestEncodedSize i ≤ maxNdnPacketSize)
    (hnodup : (s.interestFilterTable.map InterestFilterRecord.id).Nodup) :
    (∀ f ∈ s.interestFilterTable, f.allowLoopback = false →
        countCallbacks f.id (expressInterest pid i s).events = 0)
  ∧ (∀ f ∈ s.interestFilterTable, f.allowLoopback = true →
        namePrefixOf f.filterName i.name = true →
        countCallbacks f.id (expressInterest pid i s).events = 1)
  ∧ recordedBeforeCallback (expressInterest pid i s).events = true := by
  rw [expressInterest_ok_eq pid i s hfit]
  simp only
  rw [dispatchInterest_events i s.interestFilterTable ⟨pid, i, Origin.app, 1, 0, none⟩]
  refine ⟨?_, ?_, ?_⟩
  · intro f hf hloop
    rw [countCallbacks_send_cons, countCallbacks_bind,
      filter_id_unique _ s.interestFilterTable f hf hnodup]
    have hdm : f.doesMatch ⟨pid, i, Origin.app, 1, 0, none⟩ = false := by
      simp [InterestFilterRecord.doesMatch, hloop]
    rw [hdm]
    simp
  · intro f hf hloop hpre
    rw [countCallbacks_send_cons, countCallbacks_bind,
      filter_id_unique _ s.interestFilterTable f hf hnodup]
    have hdm : f.doesMatch ⟨pid, i, Origin.app, 1, 0, none⟩ = true := by
      simp [InterestFilterRecord.doesMatch, hloop, hpre]
    rw [hdm]
    simp
  · rw [recordedBeforeCallback_send_cons]
    exact recordedBeforeCallback_bind i _ _

/-- Witness for C8: on the two-filter Face, expressing `/A` invokes the
loopback-enabled filter once and the loopback-disabled filter zero
times. -/
theorem expressInterest_loopback_dispatch_witness :
    countCallbacks 2 (expressInterest 1 interestA twoFilterState).events = 0
  ∧ countCallbacks 1 (expressInterest 1 interestA twoFilterState).events = 1 :=
  ⟨(expressInterest_loopback_dispatch 1 interestA twoFilterState
      (by decide) (by decide)).1 ⟨2, [], false⟩ (by decide) rfl,
   (expressInterest_loopback_dispatch 1 interestA twoFilterState
      (by decide) (by decide)).2.1 ⟨1, [], true⟩ (by decide) rfl rfl⟩

/-- C9: on the announce path of the registration reply, the
ControlParameters placed in the ControlResponse body always carry the
fixed placeholder faceId 555 — independent of the incoming packet's
IncomingFaceId tag — together with origin PREFIXANN, cost 2048, the
CHILD_INHERIT flag, and the announcement's expiration period. -/
theorem announceReply_placeholder_faceId (pa : PrefixAnnouncement)
    (t1 t2 : Option Nat) :
    (announceReplyParams pa t1).faceId = 555
  ∧ (announceReplyParams pa t1).origin = routeOriginPrefixAnn
  ∧ (announceReplyParams pa t1).cost = 2048
  ∧ (announceReplyParams pa t1).flags = routeFlagChildInherit
  ∧ (announceReplyParams pa t1).expirationPeriod = pa.expiration
  ∧ (announceReplyParams pa t1).name = pa.announcedName
  ∧ announceReplyParams pa t1 = announceReplyParams pa t2 :=
  ⟨rfl, rfl, rfl, rfl, rfl, rfl, rfl⟩

/-- C10: `shutdown` clears the pending-interest table and the
registered-prefix table but leaves the interest-filter table exactly as it
was. -/
theorem shutdown_tables (s : FaceState) :
    (Face.shutdown s).pendingInterestTable = []
  ∧ (Face.shutdown s).registeredPrefixTable = []
  ∧ (Face.shutdown s).interestFilterTable = s.interestFilterTable :=
  ⟨rfl, rfl, rfl⟩

end NdnFace

